import Mathlib

/-!
Verification of the memsql/errors error-management package.

The Go package represents errors as immutable trees: plain errors,
`*Error` nodes carrying metadata arguments, `fmt.Errorf` wrap nodes,
join nodes (`errors.Join` and multi-`%w` `fmt.Errorf`), sentinel-marker
wrappers (`errors.String` / `errorString`), `*Captured` nodes produced by
the alert engine, `Public` redacted nodes, and `pkg/errors` stack-trace
wrappers.  We embed this data model shallowly and embed each operation
directly from the Go source: `Walk`/`walk`, `Annotate`, `Annotation`,
`Errorf` argument trimming, `String.Wrap`/`String.Errorf`, `errors.Is`
specialised to sentinel targets, `Redact`, the `Alert`/`Alertf`/`alert`
entry points (with the call-stack recursion guard modelled as a list of
frame names, and the concurrent sink fan-out idealised as every sink
completing: the claims under check depend only on the shape of the
result, not on which subset of sink identifiers arrived in time), and
`Throttle.Alert`.
-/

namespace MemsqlErrors

/- Metadata argument values ("arguments"): the Go code stores values of
arbitrary dynamic type; we use a closed universe of representative types
(string, int, bool and error values, the latter because a `%w` operand
appears in the argument list). -/
mutual

/-- An error tree, one constructor per dynamic error type of the package. -/
inductive Err where
  /-- A plain error with message text and no cause (e.g. `errors.New` of
  the stdlib, or `fmt.Errorf` without `%w`). -/
  | base (msg : String)
  /-- An `errors.String` sentinel value. -/
  | sentinel (s : String)
  /-- An `*Error` node: embeds a wrapped error and records the argument
  list used to construct the message. -/
  | node (inner : Err) (arg : List Val)
  /-- A `fmt.Errorf` wrap node with one `%w` operand: displays the fully
  formatted text, unwraps to the operand. -/
  | fmtWrap (text : String) (cause : Err)
  /-- A `fmt.Errorf` node with two or more `%w` operands: has
  `Unwrap() []error`, so the walker treats it like a join. -/
  | fmtJoin (text : String) (causes : List Err)
  /-- An `errors.Join` node over its non-nil operands. -/
  | joinE (branches : List Err)
  /-- An `errorString` wrapper: embeds the wrapped error and the marker
  value; its `Is` method recognises the marker. -/
  | strWrap (inner : Err) (s : String)
  /-- A `*Captured` node: the alerted error plus the map from capture
  provider to capture ID (modelled as an association list). -/
  | captured (inner : Err) (ids : List (String × String))
  /-- A `Public` (redacted) error: displays only the stripped message,
  unwraps to the original error. -/
  | publicE (msg : String) (inner : Err)
  /-- A `pkg/errors` `withStack` wrapper: same message, carries a stack
  trace, unwraps to the inner error. -/
  | withStackE (inner : Err)

/-- A metadata argument value of one of the representative types. -/
inductive Val where
  | str (s : String)
  | int (n : Int)
  | bool (b : Bool)
  | err (e : Err)

end

/-- The closed universe of types a caller may request from the typed
metadata lookup `Annotation[T]`. -/
inductive Ty where
  | str
  | int
  | bool

/-- Go type assertion `arg.(T)` for the representative types. -/
def vmatches : Ty → Val → Bool
  | .str, .str _ => true
  | .int, .int _ => true
  | .bool, .bool _ => true
  | _, _ => false

/-- The zero value of a requested type (`var rv T`). -/
def zeroOf : Ty → Val
  | .str => .str ""
  | .int => .int 0
  | .bool => .bool false

/-- stdlib `errors.Unwrap`: returns the result of the `Unwrap() error`
method when the dynamic type has one (`*Error`, `fmt` wrap nodes,
`errorString`, `*Captured`, `Public`, `withStack`), and nil otherwise
(plain errors, sentinels, and join nodes, whose `Unwrap` returns
`[]error`, not `error`). -/
def Unwrap : Err → Option Err
  | .node inner _ => some inner
  | .fmtWrap _ cause => some cause
  | .strWrap inner _ => some inner
  | .captured inner _ => some inner
  | .publicE _ inner => some inner
  | .withStackE inner => some inner
  | .base _ => none
  | .sentinel _ => none
  | .joinE _ => none
  | .fmtJoin _ _ => none

/-- `errors.Unwrap` lifted to a nilable error (`errors.Unwrap(nil)` is nil). -/
def UnwrapO : Option Err → Option Err
  | none => none
  | some e => Unwrap e

/-- The join-node test the walker performs: does the dynamic type have an
`Unwrap() []error` method?  If so, return the branch list. -/
def joinBranches : Err → Option (List Err)
  | .joinE bs => some bs
  | .fmtJoin _ bs => some bs
  | _ => none

mutual

/- The `Error()` display text of each node.  Wrapper nodes delegate to
the embedded error; `fmt.Errorf` nodes store their formatted text;
`errors.Join` joins branch texts with newlines; `Public` shows only its
stripped message (the capture IDs that `*Captured.Format` appends in
verbose mode are not part of `Error()`). -/
/-- Display text of an error tree. -/
def errMsg : Err → String
  | .base msg => msg
  | .sentinel s => s
  | .node inner _ => errMsg inner
  | .fmtWrap text _ => text
  | .fmtJoin text _ => text
  | .joinE bs => String.intercalate "\n" (errMsgList bs)
  | .strWrap inner _ => errMsg inner
  | .captured inner _ => errMsg inner
  | .publicE msg _ => msg
  | .withStackE inner => errMsg inner

/-- Display texts of a list of error trees. -/
def errMsgList : List Err → List String
  | [] => []
  | e :: es => errMsg e :: errMsgList es

end

/-- The argument list stored on an `*Error` node (empty for every other
dynamic type, mirroring the `ex.(*Error)` type assertion). -/
def nodeArgs : Err → List Val
  | .node _ arg => arg
  | _ => []

/-- Whether the top-level dynamic type is `*Captured`. -/
def isCaptured : Err → Bool
  | .captured _ _ => true
  | _ => false

def isCapturedO : Option Err → Bool
  | none => false
  | some e => isCaptured e

/-- Whether the top-level dynamic type is `Public` (the `err.(Public)`
type assertion in `Redact`). -/
def isPublicTop : Err → Bool
  | .publicE _ _ => true
  | _ => false

/-- `strings.HasPrefix(s, p)` (computed on the character lists). -/
def startsWithL (s p : String) : Bool := p.data.isPrefixOf s.data

/-- `strings.HasSuffix(s, p)` (computed on the character lists). -/
def endsWithL (s p : String) : Bool := p.data.isSuffixOf s.data

mutual

/-- stdlib `errors.As` specialised to the `StackTracer` interface: the
only node type with a `StackTrace()` method is the `pkg/errors`
`withStack` wrapper (interface embedding promotes no such method to
`*Error`, `errorString`, `*Captured` or `Public`).  `As` checks the
current node first, then follows `Unwrap() error`, and recurses into
every branch of an `Unwrap() []error` node. -/
def hasStack : Err → Bool
  | .withStackE _ => true
  | .node inner _ => hasStack inner
  | .fmtWrap _ cause => hasStack cause
  | .strWrap inner _ => hasStack inner
  | .captured inner _ => hasStack inner
  | .publicE _ inner => hasStack inner
  | .joinE bs => hasStackList bs
  | .fmtJoin _ bs => hasStackList bs
  | .base _ => false
  | .sentinel _ => false

/-- Stack search over join branches, in branch order. -/
def hasStackList : List Err → Bool
  | [] => false
  | e :: es => hasStack e || hasStackList es

end

/-- `WithStack` on a non-nil error: if the tree already carries a stack
trace the error is returned unmodified; otherwise it is wrapped in a
`pkg/errors` `withStack` node. -/
def WithStack1 (e : Err) : Err :=
  if hasStack e then e else .withStackE e

/-- `WithStack`: nil in, nil out; otherwise `WithStack1`. -/
def WithStack : Option Err → Option Err
  | none => none
  | some e => some (WithStack1 e)

mutual

/-- stdlib `errors.As` specialised to target type `**Captured` (as used
by `Redact`): returns the `ids` of the first `*Captured` node in `As`
traversal order, if any. -/
def findCaptured : Err → Option (List (String × String))
  | .captured _ ids => some ids
  | .node inner _ => findCaptured inner
  | .fmtWrap _ cause => findCaptured cause
  | .strWrap inner _ => findCaptured inner
  | .publicE _ inner => findCaptured inner
  | .withStackE inner => findCaptured inner
  | .joinE bs => findCapturedList bs
  | .fmtJoin _ bs => findCapturedList bs
  | .base _ => none
  | .sentinel _ => none

/-- Captured search over join branches, in branch order. -/
def findCapturedList : List Err → Option (List (String × String))
  | [] => none
  | e :: es =>
    match findCaptured e with
    | some r => some r
    | none => findCapturedList es

end

/-- Rendering of one argument under the `%s`, `%d`, `%v` and `%w` verbs
of `fmt`. -/
def renderVal : Val → String
  | .str s => s
  | .int n => toString n
  | .bool b => cond b "true" "false"
  | .err e => errMsg e

/-- Rendering of one argument under the `%q` verb (Go escaping of
special characters is not needed by any claim and is omitted). -/
def renderQ : Val → String
  | .str s => "\"" ++ s ++ "\""
  | v => renderVal v

/-- Is `c` one of the format verbs the package uses? -/
def isVerb (c : Char) : Bool :=
  c == 's' || c == 'd' || c == 'v' || c == 'w' || c == 'q'

/-- The text produced by `fmt.Errorf(format, a...)` for the verbs the
package uses (`%%` escapes a percent; a verb with no argument left is
rendered as `fmt` renders a missing operand). -/
def fmtChars : List Char → List Val → String
  | [], _ => ""
  | '%' :: c :: rest, args =>
    if c == '%' then "%" ++ fmtChars rest args
    else if isVerb c then
      match args with
      | [] => "%!" ++ String.singleton c ++ "(MISSING)" ++ fmtChars rest []
      | a :: as =>
        (if c == 'q' then renderQ a else renderVal a) ++ fmtChars rest as
    else "%" ++ String.singleton c ++ fmtChars rest args
  | ch :: rest, args => String.singleton ch ++ fmtChars rest args

/-- The arguments consumed by `%w` verbs, in order (used to determine
what `fmt.Errorf` wraps). -/
def wrapOperands : List Char → List Val → List Val
  | [], _ => []
  | '%' :: c :: rest, args =>
    if c == '%' then wrapOperands rest args
    else if isVerb c then
      match args with
      | [] => []
      | a :: as => (if c == 'w' then [a] else []) ++ wrapOperands rest as
    else wrapOperands rest args
  | _ :: rest, args => wrapOperands rest args

/-- `fmt.Errorf(format, a...)`: a plain error when no `%w` operand is an
error value, a single wrap node for one, and an `Unwrap() []error` node
for several. -/
def mkFmtErr (format : String) (a : List Val) : Err :=
  let text := fmtChars format.data a
  match (wrapOperands format.data a).filterMap
      (fun v => match v with | .err e => some e | _ => none) with
  | [] => .base text
  | [c] => .fmtWrap text c
  | cs => .fmtJoin text cs

/-- The argument-trimming step of `Errorf`: drop the last argument when
the format ends in a space followed by `%w`, then drop the first when
the format starts with `%s`. -/
def errorfArgs (format : String) (a : List Val) : List Val :=
  let a1 := if endsWithL format " %w" && decide (0 < a.length) then a.dropLast else a
  if startsWithL format "%s" && decide (0 < a1.length) then a1.drop 1 else a1

/-- `Errorf(format, a...)`: an `*Error` node wrapping
`WithStack(fmt.Errorf(format, a...))` whose stored argument list is the
trimmed argument list. -/
def Errorf (format : String) (a : List Val) : Err :=
  .node (WithStack1 (mkFmtErr format a)) (errorfArgs format a)

/-- `String.Wrap` on a non-nil error: an `errorString` wrapper around
`WithStack(err)` carrying the marker value. -/
def SwrapE (s : String) (e : Err) : Err :=
  .strWrap (WithStack1 e) s

/-- `String.Wrap`: nil in, nil out. -/
def Swrap (s : String) (e? : Option Err) : Option Err :=
  match e? with
  | none => none
  | some e => some (SwrapE s e)

/-- `String.Errorf`: an `errorString` wrapper around `Errorf(format, a...)`
carrying the marker value. -/
def SErrorf (s : String) (format : String) (a : List Val) : Err :=
  .strWrap (Errorf format a) s

mutual

/-- stdlib `errors.Is(e, target)` specialised to a sentinel target
`errors.String(s)`.  At each node `Is` first compares `e == target`
(true only when `e` is the same sentinel value, since `errors.String` is
a comparable value type and every other node has a different dynamic
type), then calls the node's own `Is` method (only `errorString` has
one: `target == e.s`), then follows `Unwrap() error` or recurses into
every branch of an `Unwrap() []error` node. -/
def isSentinel : Err → String → Bool
  | .sentinel s2, s => s2 == s
  | .strWrap inner s2, s => s2 == s || isSentinel inner s
  | .node inner _, s => isSentinel inner s
  | .fmtWrap _ cause, s => isSentinel cause s
  | .captured inner _, s => isSentinel inner s
  | .publicE _ inner, s => isSentinel inner s
  | .withStackE inner, s => isSentinel inner s
  | .joinE bs, s => isSentinelList bs s
  | .fmtJoin _ bs, s => isSentinelList bs s
  | .base _, _ => false

/-- Sentinel search over join branches, in branch order. -/
def isSentinelList : List Err → String → Bool
  | [], _ => false
  | e :: es, s => isSentinel e s || isSentinelList es s

end

/-- `errors.Is` lifted to a nilable error. -/
def isSentinelO : Option Err → String → Bool
  | none, _ => false
  | some e, s => isSentinel e s

/-- `Annotate(err, values...)`: nil in, nil out; an empty value list
returns the error unchanged; otherwise an `*Error` node carrying the
values is wrapped around the error. -/
def Annotate (e? : Option Err) (values : List Val) : Option Err :=
  match e? with
  | none => none
  | some e => if values.isEmpty then some e else some (.node e values)

mutual

/-- The package's `walk`: visit the node; stop the whole traversal if
the visitor said stop; at a node with `Unwrap() []error` walk each
branch in order (and do not unwrap the node itself); otherwise unwrap
one level and continue; a node that unwraps to nil ends the chain.  The
Go visitor is a closure over mutable state, so the embedding threads a
state `σ` through the visitor explicitly: `f` returns the new state and
the continue flag. -/
def walkM {σ : Type} (f : σ → Err → σ × Bool) : Err → σ → σ × Bool
  | e, s =>
    match f s e with
    | (s1, false) => (s1, false)
    | (s1, true) =>
      match e with
      | .base _ => (s1, true)
      | .sentinel _ => (s1, true)
      | .node inner _ => walkM f inner s1
      | .fmtWrap _ cause => walkM f cause s1
      | .strWrap inner _ => walkM f inner s1
      | .captured inner _ => walkM f inner s1
      | .publicE _ inner => walkM f inner s1
      | .withStackE inner => walkM f inner s1
      | .joinE bs => walkMList f bs s1
      | .fmtJoin _ bs => walkMList f bs s1

/-- The branch loop of `walk`: walk each branch, short-circuiting as
soon as one returns false. -/
def walkMList {σ : Type} (f : σ → Err → σ × Bool) : List Err → σ → σ × Bool
  | [], s => (s, true)
  | e :: es, s =>
    match walkM f e s with
    | (s1, false) => (s1, false)
    | (s1, true) => walkMList f es s1

end

/-- `Walk` lifted to a nilable error (walking nil visits nothing). -/
def WalkO {σ : Type} (e? : Option Err) (f : σ → Err → σ × Bool) (s : σ) : σ × Bool :=
  match e? with
  | none => (s, true)
  | some e => walkM f e s

mutual

/-- The visitation order stated by the design: depth-first, outermost
node first; at a join node every branch in join order; at a single-cause
node the unwrap chain. -/
def preorder : Err → List Err
  | .base m => [.base m]
  | .sentinel s => [.sentinel s]
  | .node inner a => .node inner a :: preorder inner
  | .fmtWrap t cause => .fmtWrap t cause :: preorder cause
  | .strWrap inner s => .strWrap inner s :: preorder inner
  | .captured inner ids => .captured inner ids :: preorder inner
  | .publicE m inner => .publicE m inner :: preorder inner
  | .withStackE inner => .withStackE inner :: preorder inner
  | .joinE bs => .joinE bs :: preorderList bs
  | .fmtJoin t bs => .fmtJoin t bs :: preorderList bs

/-- Concatenated preorders of a branch list, in branch order. -/
def preorderList : List Err → List Err
  | [] => []
  | e :: es => preorder e ++ preorderList es

end

/-- Run a stateful visitor over a list of nodes in order, stopping at
the first node where it returns false. -/
def runVisitor {σ : Type} (f : σ → Err → σ × Bool) : σ → List Err → σ × Bool
  | s, [] => (s, true)
  | s, e :: l =>
    match f s e with
    | (s1, false) => (s1, false)
    | (s1, true) => runVisitor f s1 l

/-- The visitor closure inside `Annotation[T]`: at an `*Error` node scan
its arguments in order; on the first value of the requested type record
it and stop the walk; otherwise continue. -/
def annotVisitor (t : Ty) : Val × Bool → Err → (Val × Bool) × Bool
  | s, .node _ args =>
    (match args.find? (vmatches t) with
     | some v => ((v, true), false)
     | none => (s, true))
  | s, _ => (s, true)

/-- `Annotation[T](err)`: walk the tree with the scanning visitor,
starting from the zero value and a false found-flag. -/
def Annotation (t : Ty) (e? : Option Err) : Val × Bool :=
  (WalkO e? (annotVisitor t) (zeroOf t, false)).1

/-- The fully qualified name of the internal `alert` function, which the
recursion guard compares stack-frame function names against. -/
def alertFuncName : String := "github.com/memsql/errors.alert"

/-- The recursion guard of `alert`: inspect the caller frames (modelled
as the list of function names above the executing `alert` frame) and
report recursion when any of them has the alert function's own name as a
prefix (prefix, not equality, because the sink handlers run in
goroutine closures named `...alert.funcN`). -/
def recursionDetected (frames : List String) : Bool :=
  frames.any (fun f => startsWithL f alertFuncName)

/-- The identifier map recorded by a dispatch in which every registered
sink completes within the timeout: one entry per provider, in registry
order, holding the identifier the provider's handler returned.  The
registry is modelled as the list of provider names plus a function from
provider to returned identifier; the bounded concurrent fan-out is
idealised as all sinks completing (the claims under check depend only on
the shape of the result). -/
def capturedIds (registry : List String) (handler : String → String) :
    List (String × String) :=
  registry.map (fun p => (p, handler p))

/-- The internal `alert`: if the recursion guard fires, return the input
unmodified; otherwise attach a fresh stack trace unconditionally
(`pkgerrors.WithStack`, not the package's `WithStack`) and return a
`*Captured` node with the recorded identifier map. -/
def alert (frames registry : List String) (handler : String → String)
    (e : Err) : Err :=
  if recursionDetected frames then e
  else .captured (.withStackE e) (capturedIds registry handler)

/-- The `Alert` entry point: nil in, nil out; with an empty registry log
locally and return the input with a stack annotation (first annotation
wins), without dispatching; otherwise dispatch via `alert`. -/
def Alert (frames registry : List String) (handler : String → String) :
    Option Err → Option Err
  | none => none
  | some e =>
    if registry.isEmpty then some (WithStack1 e)
    else some (alert frames registry handler e)

/-- The `*Error` node `Alertf` builds: `fmt.Errorf` (no stack, to avoid
redundancy with the stack produced in `alert`) with the untrimmed
argument list. -/
def mkAlertfErr (format : String) (a : List Val) : Err :=
  .node (mkFmtErr format a) a

/-- `Alertf(format, a...)`: build the node and call the internal
dispatch directly, regardless of whether any sink is registered. -/
def Alertf (frames registry : List String) (handler : String → String)
    (format : String) (a : List Val) : Err :=
  alert frames registry handler (mkAlertfErr format a)

/-- A `Throttle`: scope label, threshold, and the shared counter. -/
structure Throttle where
  scope : String
  threshold : Int
  count : Int

/-- `int32` wraparound for the atomic counter increment. -/
def i32wrap (n : Int) : Int := (n + 2 ^ 31) % 2 ^ 32 - 2 ^ 31

/-- One call to `Throttle.Alert`: nil in, nil out without touching the
counter; otherwise increment the counter; at or below the threshold
delegate to `Alert`; above it log locally and return the original error,
and when the incremented counter is exactly 1000 perform one forced
`Alert` summarising the suppressed volume and reset the counter to zero.
Returns the updated throttle, the returned error, and the result of the
forced alert when one fired (`none` otherwise). -/
def throttleAlert (frames registry : List String) (handler : String → String)
    (t : Throttle) (e? : Option Err) : Throttle × Option Err × Option Err :=
  match e? with
  | none => (t, none, none)
  | some ex =>
    let c := i32wrap (t.count + 1)
    if c ≤ t.threshold then
      ({ t with count := c }, Alert frames registry handler (some ex), none)
    else if c = 1000 then
      ({ t with count := 0 }, some ex,
        Alert frames registry handler
          (some (mkFmtErr "throttled excessive errors (%d in scope %q)"
            [.int c, .str t.scope])))
    else
      ({ t with count := c }, some ex, none)

/-- The throttle state after `n` calls of `Throttle.Alert` on the same
non-nil error, starting from a fresh throttle. -/
def throttleRun (frames registry : List String) (handler : String → String)
    (scope : String) (T : Int) (e : Err) : Nat → Throttle
  | 0 => ⟨scope, T, 0⟩
  | n + 1 =>
    (throttleAlert frames registry handler
      (throttleRun frames registry handler scope T e n) (some e)).1

/-- Scan for the closing paren of a parenthetical: consume non-paren
characters up to a `)` and return the remainder; fail at a nested `(` or
at the end of the text (mirroring the `[^()]*\)` part of the pattern). -/
def scanParen : List Char → Option (List Char)
  | [] => none
  | ')' :: rest => some rest
  | '(' :: _ => none
  | _ :: rest => scanParen rest

/-- One pass of the regex replacement ` \([^()]*\) → ""`: at each
position try to match a space, an opening paren, non-paren characters
and a closing paren; on a match drop it and continue after it, otherwise
emit one character and retry at the next position.  The fuel is the
remaining length plus one, which each step strictly decreases, so it is
never exhausted. -/
def stripAux : Nat → List Char → List Char
  | 0, cs => cs
  | _ + 1, [] => []
  | fuel + 1, ' ' :: '(' :: rest =>
    (match scanParen rest with
     | some rest2 => stripAux fuel rest2
     | none => ' ' :: stripAux fuel ('(' :: rest))
  | fuel + 1, c :: cs => c :: stripAux fuel cs

/-- `parenReg.ReplaceAllString(long, "")` for the pattern ` \([^()]*\)`. -/
def stripParens (s : String) : String :=
  ⟨stripAux (s.data.length + 1) s.data⟩

/-- `strings.SplitN(long, ":", 2)[0]`: the part preceding the first
colon (the whole string when there is none). -/
def truncColon (s : String) : String :=
  ⟨s.data.takeWhile (fun c => c ≠ ':')⟩

/-- `Captured.allID()`: the identifiers joined by a comma and space (map
iteration order is modelled as insertion order). -/
def allID (ids : List (String × String)) : String :=
  String.intercalate ", " (ids.map Prod.snd)

/-- `Redact(err)`: a value that is already `Public` is returned
unchanged; otherwise strip every parenthetical (with one preceding
space) from the display text, truncate at the first colon, append the
comma-joined capture identifiers in square brackets when the tree
contains a `*Captured` node, and wrap the original error in a `Public`
node showing the stripped text. -/
def Redact (e : Err) : Err :=
  if isPublicTop e then e
  else
    let long := stripParens (errMsg e)
    let short := truncColon long
    let short2 :=
      match findCaptured e with
      | some ids => short ++ " [" ++ allID ids ++ "]"
      | none => short
    .publicE short2 e

/-! Helper lemmas. -/

theorem runVisitor_append {σ : Type} (f : σ → Err → σ × Bool)
    (l1 l2 : List Err) (s : σ) :
    runVisitor f s (l1 ++ l2) =
      match runVisitor f s l1 with
      | (s1, false) => (s1, false)
      | (s1, true) => runVisitor f s1 l2 := by
  induction l1 generalizing s with
  | nil => simp [runVisitor]
  | cons e l ih =>
    simp only [List.cons_append, runVisitor]
    cases hfe : f s e with
    | mk s1 ok => cases ok <;> simp [ih]

/-- One-step unfolding of `walkM`, phrased through `joinBranches` and
`Unwrap`: this is the loop body of the Go `walk` verbatim. -/
theorem walkM_unfold {σ : Type} (f : σ → Err → σ × Bool) (e : Err) (s : σ) :
    walkM f e s =
      match f s e with
      | (s1, false) => (s1, false)
      | (s1, true) =>
        match joinBranches e with
        | some bs => walkMList f bs s1
        | none =>
          match Unwrap e with
          | some c => walkM f c s1
          | none => (s1, true) := by
  cases e <;> rw [walkM] <;> rfl

/-- The visitation order, characterised through `joinBranches` and
`Unwrap`: the node itself first, then every join branch in join order,
or else the unwrap chain. -/
theorem preorder_unfold (e : Err) :
    preorder e =
      e :: (match joinBranches e with
            | some bs => preorderList bs
            | none =>
              match Unwrap e with
              | some c => preorder c
              | none => []) := by
  cases e <;> rw [preorder] <;> rfl

mutual

theorem walkM_eq {σ : Type} (f : σ → Err → σ × Bool) (e : Err) (s : σ) :
    walkM f e s = runVisitor f s (preorder e) := by
  rw [walkM_unfold, preorder_unfold, runVisitor]
  cases hfe : f s e with
  | mk s1 ok =>
    cases ok
    · rfl
    · show (match joinBranches e with
            | some bs => walkMList f bs s1
            | none =>
              match Unwrap e with
              | some c => walkM f c s1
              | none => (s1, true)) =
        runVisitor f s1
          (match joinBranches e with
           | some bs => preorderList bs
           | none =>
             match Unwrap e with
             | some c => preorder c
             | none => [])
      cases e with
      | base m => rfl
      | sentinel s2 => rfl
      | node inner a => exact walkM_eq f inner s1
      | fmtWrap t cause => exact walkM_eq f cause s1
      | strWrap inner s2 => exact walkM_eq f inner s1
      | captured inner ids => exact walkM_eq f inner s1
      | publicE m inner => exact walkM_eq f inner s1
      | withStackE inner => exact walkM_eq f inner s1
      | joinE bs => exact walkMList_eq f bs s1
      | fmtJoin t bs => exact walkMList_eq f bs s1

theorem walkMList_eq {σ : Type} (f : σ → Err → σ × Bool) (bs : List Err) (s : σ) :
    walkMList f bs s = runVisitor f s (preorderList bs) := by
  cases bs with
  | nil => rw [walkMList, preorderList]; rfl
  | cons e es =>
    rw [walkMList, preorderList, runVisitor_append, ← walkM_eq f e s]
    cases h : walkM f e s with
    | mk s1 ok =>
      cases ok
      · rfl
      · exact walkMList_eq f es s1
end

/-- Flattened metadata argument lists of a node list, in order. -/
def argsOf : List Err → List Val
  | [] => []
  | e :: l => nodeArgs e ++ argsOf l

theorem findFirst_append {α : Type} (p : α → Bool) (l1 l2 : List α) :
    (l1 ++ l2).find? p =
      match l1.find? p with
      | some v => some v
      | none => l2.find? p := by
  induction l1 with
  | nil => simp
  | cons a l ih =>
    by_cases h : p a
    · simp [List.find?_cons_of_pos, h]
    · simp [List.find?_cons_of_neg, h, ih]

/-- The `Annotation` visitor records the first matching argument of the
visited node's own list and stops, and leaves the state alone otherwise. -/
theorem annotVisitor_eq (t : Ty) (s : Val × Bool) (e : Err) :
    annotVisitor t s e =
      match (nodeArgs e).find? (vmatches t) with
      | some v => ((v, true), false)
      | none => (s, true) := by
  cases e <;> rfl

/-- Running the `Annotation` visitor over a node list finds the first
matching argument of the flattened argument lists. -/
theorem runVisitor_annot (t : Ty) (l : List Err) (s : Val × Bool) :
    runVisitor (annotVisitor t) s l =
      match (argsOf l).find? (vmatches t) with
      | some v => ((v, true), false)
      | none => (s, true) := by
  induction l generalizing s with
  | nil => rfl
  | cons e l ih =>
    rw [runVisitor, annotVisitor_eq,
      show argsOf (e :: l) = nodeArgs e ++ argsOf l from rfl, findFirst_append]
    cases hf : (nodeArgs e).find? (vmatches t) with
    | some v => rfl
    | none => exact ih s

/-! Claim theorems. -/

/-- C1: for every error tree and requested type, the typed lookup
(`Annotation[T]`) returns the first argument value of that type in
visitation order with a true found-flag — below any number of wraps and
inside join branches, since `preorder` spans the whole tree — and the
zero value of the type with a false flag when no argument anywhere in
the tree has the type (and on a nil error). -/
theorem C1_lookup_first_match (t : Ty) (e : Err) :
    ( Annotation t (some e) =
        match (argsOf (preorder e)).find? (vmatches t) with
        | some v => (v, true)
        | none => (zeroOf t, false)) ∧
    Annotation t none = (zeroOf t, false) := by
  constructor
  · show (walkM (annotVisitor t) e (zeroOf t, false)).1 = _
    rw [walkM_eq, runVisitor_annot]
    cases hf : (argsOf (preorder e)).find? (vmatches t) <;> rfl
  · rfl

/-- C2: the walker is equivalent to running the visitor along the
preorder listing of the tree, stopping the entire traversal at the
first stop signal in any branch; and the preorder listing visits the
node itself first, then every join branch in join order (without
unwrapping the join node), or else the single unwrap chain. -/
theorem C2_walk_visits_preorder {σ : Type} (f : σ → Err → σ × Bool)
    (e : Err) (s : σ) :
    walkM f e s = runVisitor f s (preorder e) ∧
    preorder e =
      e :: (match joinBranches e with
            | some bs => preorderList bs
            | none =>
              match Unwrap e with
              | some c => preorder c
              | none => []) :=
  ⟨walkM_eq f e s, preorder_unfold e⟩

/-- C7 counterexample: with empty metadata, `Annotate` returns the error
itself, whose own `Unwrap` is nil — not the error — so the claimed
`Unwrap(Annotate(e, m...)) == e` fails for empty `m` at `e = errors.New
style base error`. -/
theorem C7_cex_empty_metadata :
    UnwrapO (Annotate (some (.base "base error")) []) = none ∧
    (none : Option Err) ≠ some (.base "base error") :=
  ⟨rfl, fun h => Option.noConfusion h⟩

/-- C7 (amended): for non-empty metadata `Unwrap(Annotate(e, m...)) == e`;
`Annotate` with empty metadata returns the error itself unchanged; and
`Annotate(nil, m...)` is nil for every `m`. -/
theorem C7_annotate_unwrap (e : Err) (vs : List Val) (h : vs ≠ []) :
    UnwrapO (Annotate (some e) vs) = some e ∧
    Annotate (some e) [] = some e ∧
    Annotate none vs = none := by
  refine ⟨?_, rfl, rfl⟩
  cases vs with
  | nil => exact absurd rfl h
  | cons v vs => rfl

theorem C7_annotate_unwrap_witness :
    ([Val.str "metadata"] ≠ ([] : List Val)) ∧
    (UnwrapO (Annotate (some (.base "base error")) [Val.str "metadata"]) =
        some (.base "base error") ∧
      Annotate (some (.base "base error")) [] = some (.base "base error") ∧
      Annotate none [Val.str "metadata"] = none) :=
  ⟨List.cons_ne_nil _ _,
    C7_annotate_unwrap (.base "base error") [Val.str "metadata"]
      (List.cons_ne_nil _ _)⟩

/-- Split a character list at spaces (the semantics of
`strings.Split(s, " ")`). -/
def splitTokAux : List Char → List Char → List String
  | [], acc => [⟨acc.reverse⟩]
  | ' ' :: rest, acc => String.mk acc.reverse :: splitTokAux rest []
  | c :: rest, acc => splitTokAux rest (c :: acc)

/-- The last space-separated token of a format string: the reading of
"the format string's last token" in the claim about `Errorf` argument
trimming. -/
def lastTok (format : String) : Option String :=
  (splitTokAux format.data []).getLast?

/-- C8 counterexample: for the format `"%w"` the last token is the wrap
marker, yet `Errorf` stores the argument list unchanged — the wrapped
cause is not dropped, because the source requires a space before the
`%w` (`strings.HasSuffix(format, " %w")`). -/
theorem C8_cex_bare_wrap_format :
    lastTok "%w" = some "%w" ∧
    nodeArgs (Errorf "%w" [Val.err (.base "boom")]) = [Val.err (.base "boom")] ∧
    nodeArgs (Errorf "%w" [Val.err (.base "boom")]) ≠
      List.dropLast [Val.err (.base "boom")] :=
  ⟨rfl, rfl, fun h => List.cons_ne_nil _ _ h⟩

/-- C8 (amended): `Errorf` stores the literal argument list, except that
the last argument is dropped when the format ends in a space followed by
`%w` (a bare `"%w"` format does not trigger the trim), and the first
argument is then dropped when the format starts with `%s`; for every
format with neither property the stored list is the argument list
unchanged. -/
theorem C8_errorf_stored_args (format : String) (a : List Val) :
    (nodeArgs (Errorf format a) =
      (let a1 :=
        if endsWithL format " %w" && decide (0 < a.length) then a.dropLast else a
       if startsWithL format "%s" && decide (0 < a1.length) then a1.drop 1 else a1)) ∧
    (endsWithL format " %w" = false → startsWithL format "%s" = false →
      nodeArgs (Errorf format a) = a) := by
  constructor
  · rfl
  · intro h1 h2
    show errorfArgs format a = a
    rw [errorfArgs]
    simp [h1, h2]

theorem C8_errorf_stored_args_witness :
    endsWithL "a %v b" " %w" = false ∧
    startsWithL "a %v b" "%s" = false ∧
    nodeArgs (Errorf "a %v b" [Val.int 7]) = [Val.int 7] :=
  ⟨rfl, rfl, (C8_errorf_stored_args "a %v b" [Val.int 7]).2 rfl rfl⟩

/-! Step equations for the identity search and the display text. -/

theorem isSentinel_strWrap (inner : Err) (s2 s : String) :
    isSentinel (.strWrap inner s2) s = (s2 == s || isSentinel inner s) := by
  rw [isSentinel]

theorem isSentinel_node (inner : Err) (a : List Val) (s : String) :
    isSentinel (.node inner a) s = isSentinel inner s := by
  rw [isSentinel]

theorem isSentinel_fmtWrap (t : String) (c : Err) (s : String) :
    isSentinel (.fmtWrap t c) s = isSentinel c s := by
  rw [isSentinel]

theorem isSentinel_withStackE (inner : Err) (s : String) :
    isSentinel (.withStackE inner) s = isSentinel inner s := by
  rw [isSentinel]

theorem isSentinel_sentinel (s2 s : String) :
    isSentinel (.sentinel s2) s = (s2 == s) := by
  rw [isSentinel]

/-- The identity search looks through the stack annotation that
`WithStack` may or may not add. -/
theorem isSentinel_WithStack1 (e : Err) (s : String) :
    isSentinel (WithStack1 e) s = isSentinel e s := by
  rw [WithStack1]
  split
  · rfl
  · rw [isSentinel_withStackE]

theorem errMsg_strWrap (inner : Err) (s : String) :
    errMsg (.strWrap inner s) = errMsg inner := by
  rw [errMsg]

theorem errMsg_withStackE (inner : Err) :
    errMsg (.withStackE inner) = errMsg inner := by
  rw [errMsg]

/-- The display text is unchanged by the stack annotation that
`WithStack` may or may not add. -/
theorem errMsg_WithStack1 (e : Err) : errMsg (WithStack1 e) = errMsg e := by
  rw [WithStack1]
  split
  · rfl
  · rw [errMsg_withStackE]

/-- C4: a sentinel marker `S` satisfies `S.Wrap(nil) == nil`; wrapping
any non-nil error produces an error that `Is` the marker and whose
displayed text is the input's text unchanged; `Is(S, S)` holds; two
distinct markers never match each other raw; and wrapping with two
different markers — via `Wrap` or via `S.Errorf("%w", ...)` — yields an
error matching both markers. -/
theorem C4_sentinel_marker (s1 s2 : String) (e : Err) (hne : s1 ≠ s2) :
    Swrap s1 none = none ∧
    isSentinel (SwrapE s1 e) s1 = true ∧
    errMsg (SwrapE s1 e) = errMsg e ∧
    isSentinel (.sentinel s1) s1 = true ∧
    isSentinel (.sentinel s1) s2 = false ∧
    isSentinel (SwrapE s2 (SwrapE s1 e)) s1 = true ∧
    isSentinel (SwrapE s2 (SwrapE s1 e)) s2 = true ∧
    isSentinel (SErrorf s2 "%w" [.err (SErrorf s1 "%w" [.err e])]) s1 = true ∧
    isSentinel (SErrorf s2 "%w" [.err (SErrorf s1 "%w" [.err e])]) s2 = true := by
  refine ⟨rfl, ?_, ?_, ?_, ?_, ?_, ?_, ?_, ?_⟩
  · rw [SwrapE, isSentinel_strWrap]
    simp
  · rw [SwrapE, errMsg_strWrap, errMsg_WithStack1]
  · rw [isSentinel_sentinel]
    simp
  · rw [isSentinel_sentinel]
    simp [hne]
  · rw [SwrapE, isSentinel_strWrap, isSentinel_WithStack1, SwrapE,
      isSentinel_strWrap]
    simp
  · rw [SwrapE, isSentinel_strWrap]
    simp
  · rw [SErrorf, isSentinel_strWrap, Errorf, isSentinel_node,
      isSentinel_WithStack1]
    rw [show mkFmtErr "%w" [Val.err (SErrorf s1 "%w" [.err e])] =
          .fmtWrap (errMsg (SErrorf s1 "%w" [.err e]) ++ "")
            (SErrorf s1 "%w" [.err e]) from rfl]
    rw [isSentinel_fmtWrap, SErrorf, isSentinel_strWrap]
    simp
  · rw [SErrorf, isSentinel_strWrap]
    simp

theorem C4_sentinel_marker_witness :
    ("signal one" ≠ "signal two") ∧
    (Swrap "signal one" none = none ∧
      isSentinel (SwrapE "signal one" (.base "a test error")) "signal one" = true ∧
      errMsg (SwrapE "signal one" (.base "a test error")) =
        errMsg (.base "a test error") ∧
      isSentinel (.sentinel "signal one") "signal one" = true ∧
      isSentinel (.sentinel "signal one") "signal two" = false ∧
      isSentinel (SwrapE "signal two" (SwrapE "signal one" (.base "a test error")))
        "signal one" = true ∧
      isSentinel (SwrapE "signal two" (SwrapE "signal one" (.base "a test error")))
        "signal two" = true ∧
      isSentinel (SErrorf "signal two" "%w"
          [.err (SErrorf "signal one" "%w" [.err (.base "a test error")])])
        "signal one" = true ∧
      isSentinel (SErrorf "signal two" "%w"
          [.err (SErrorf "signal one" "%w" [.err (.base "a test error")])])
        "signal two" = true) :=
  ⟨by decide,
    C4_sentinel_marker "signal one" "signal two" (.base "a test error") (by decide)⟩

/-- `Redact` always yields a `Public` value. -/
theorem isPublicTop_redact (e : Err) : isPublicTop (Redact e) = true := by
  rw [Redact]
  split
  · assumption
  · rfl

/-- The property C5 states of `Redact` on a not-yet-public error. -/
def redactSpec (e : Err) : Prop :=
  isPublicTop (Redact e) = true ∧
  errMsg (Redact e) =
    (let s := truncColon (stripParens (errMsg e))
     match findCaptured e with
     | some ids => s ++ " [" ++ allID ids ++ "]"
     | none => s) ∧
  Unwrap (Redact e) = some e

/-- C5: for every error that is not already `Public`, `Redact` produces
a `Public` error whose displayed text is the display text with every
space-preceded parenthetical removed and truncated at the first colon,
with the comma-joined capture identifiers appended in brackets when the
tree contains a `*Captured` node; and the result unwraps to the original
error. -/
theorem C5_redact_text (e : Err) (h : isPublicTop e = false) : redactSpec e := by
  refine ⟨isPublicTop_redact e, ?_, ?_⟩
  · rw [Redact]
    simp only [h, Bool.false_eq_true, if_false]
    rw [errMsg]
  · rw [Redact]
    simp only [h, Bool.false_eq_true, if_false]
    rw [Unwrap]

theorem C5_redact_text_witness :
    isPublicTop (Errorf "thing (%s) failed: %w" [.str "x", .err (.base "boom")]) =
      false ∧
    redactSpec (Errorf "thing (%s) failed: %w" [.str "x", .err (.base "boom")]) ∧
    errMsg (Redact (Errorf "thing (%s) failed: %w" [.str "x", .err (.base "boom")])) =
      "thing failed" :=
  ⟨rfl,
    C5_redact_text (Errorf "thing (%s) failed: %w" [.str "x", .err (.base "boom")]) rfl,
    rfl⟩

/-- C6: `Redact` is idempotent, and in particular redacting a value that
is already a `Public` error returns it unchanged. -/
theorem C6_redact_idempotent (e : Err) (m : String) (c : Err) :
    Redact (Redact e) = Redact e ∧ Redact (.publicE m c) = .publicE m c := by
  constructor
  · have h := isPublicTop_redact e
    rw [Redact]
    simp [h]
  · rw [Redact]
    rfl

/-! Lemmas about the recursion guard and dispatch. -/

theorem isPrefixOf_append_self {α : Type} [BEq α] [LawfulBEq α] (l t : List α) :
    l.isPrefixOf (l ++ t) = true := by
  induction l with
  | nil => simp
  | cons a l ih => simp [List.isPrefixOf_cons₂_self, ih]

/-- A frame name extending the alert function's own name (such as the
goroutine closure `...alert.func2` a sink handler runs in) is a
prefix-match for the guard. -/
theorem startsWithL_append (p t : String) : startsWithL (p ++ t) p = true := by
  rw [startsWithL, String.data_append]
  exact isPrefixOf_append_self p.data t.data

/-- A call stack containing any frame whose function name extends the
alert function's name triggers the recursion guard. -/
theorem recursionDetected_append (pre post : List String) (suffix : String) :
    recursionDetected (pre ++ (alertFuncName ++ suffix) :: post) = true := by
  rw [recursionDetected]
  simp [startsWithL_append]

/-- Dispatch with a non-empty registry and no recursion on the stack
returns a `*Captured` node around the freshly stack-annotated error. -/
theorem Alert_dispatch (frames : List String) (r : String) (rs : List String)
    (handler : String → String) (e : Err)
    (hrec : recursionDetected frames = false) :
    Alert frames (r :: rs) handler (some e) =
      some (.captured (.withStackE e) (capturedIds (r :: rs) handler)) := by
  rw [Alert]
  simp [alert, hrec]

/-- C9: when a sink handler calls the Alert entry point during dispatch,
its call stack contains the goroutine closure frame, whose function name
extends the alert function's own name, so the guard fires: the inner
call returns the input unmodified (no `*Captured` wrapper is added),
while the outer call — whose stack has no such frame — still returns a
`*Captured` error. -/
theorem C9_recursion_guard (pre post : List String) (suffix : String)
    (outerFrames registry : List String) (handler : String → String)
    (inner e : Err)
    (houter : recursionDetected outerFrames = false)
    (hreg : registry ≠ []) :
    (Alert (pre ++ (alertFuncName ++ suffix) :: post) registry handler
        (some inner) = some inner) ∧
    (isCaptured inner = false →
      isCapturedO (Alert (pre ++ (alertFuncName ++ suffix) :: post) registry
        handler (some inner)) = false) ∧
    (Alert outerFrames registry handler (some e) =
      some (.captured (.withStackE e) (capturedIds registry handler))) ∧
    isCapturedO (Alert outerFrames registry handler (some e)) = true := by
  obtain ⟨r, rs, rfl⟩ : ∃ r rs, registry = r :: rs := by
    cases registry with
    | nil => exact absurd rfl hreg
    | cons r rs => exact ⟨r, rs, rfl⟩
  have hinner : Alert (pre ++ (alertFuncName ++ suffix) :: post) (r :: rs)
      handler (some inner) = some inner := by
    rw [Alert]
    simp [alert, recursionDetected_append]
  refine ⟨hinner, ?_, Alert_dispatch _ r rs handler e houter, ?_⟩
  · intro hcap
    rw [hinner]
    exact hcap
  · rw [Alert_dispatch _ r rs handler e houter]
    rfl

theorem C9_recursion_guard_witness :
    recursionDetected ["main.main"] = false ∧
    (["log"] ≠ ([] : List String)) ∧
    ((Alert ([] ++ (alertFuncName ++ ".func2") :: []) ["log"] (fun _ => "id1")
        (some (.base "recursive alert, should fail")) =
      some (.base "recursive alert, should fail")) ∧
    (isCaptured (.base "recursive alert, should fail") = false →
      isCapturedO (Alert ([] ++ (alertFuncName ++ ".func2") :: []) ["log"]
        (fun _ => "id1") (some (.base "recursive alert, should fail"))) = false) ∧
    (Alert ["main.main"] ["log"] (fun _ => "id1")
        (some (.base "top level alert, should succeed")) =
      some (.captured (.withStackE (.base "top level alert, should succeed"))
        (capturedIds ["log"] (fun _ => "id1")))) ∧
    isCapturedO (Alert ["main.main"] ["log"] (fun _ => "id1")
      (some (.base "top level alert, should succeed"))) = true) :=
  ⟨rfl, List.cons_ne_nil _ _,
    C9_recursion_guard [] [] ".func2" ["main.main"] ["log"] (fun _ => "id1")
      (.base "recursive alert, should fail")
      (.base "top level alert, should succeed") rfl (List.cons_ne_nil _ _)⟩

/-- C10 counterexample: with an empty registry, `Alert` of an error that
is already a `*Captured` node returns that error itself (it already
carries a stack), so the returned value is a `Captured` node — the claim
that the result "is not a Captured node" fails for such inputs. -/
theorem C10_cex_already_captured :
    Alert ["main.main"] [] (fun _ => "")
        (some (.captured (.withStackE (.base "x")) [])) =
      some (.captured (.withStackE (.base "x")) []) ∧
    isCapturedO (Alert ["main.main"] [] (fun _ => "")
      (some (.captured (.withStackE (.base "x")) []))) = true :=
  ⟨rfl, rfl⟩

/-- C10 (amended): with an empty registry, `Alert(nil)` is nil, and
`Alert(e)` returns the stack-annotated `e` without adding a `Captured`
wrapper (so the result is not a `Captured` node whenever `e` itself is
not one); `Alertf` under the same empty registry calls the internal
dispatch directly and returns a `*Captured` node with an empty
identifier map — the two entry points disagree on the result shape. -/
theorem C10_empty_registry (frames : List String) (handler : String → String)
    (e : Err) (format : String) (a : List Val)
    (hrec : recursionDetected frames = false)
    (hcap : isCaptured e = false) :
    Alert frames [] handler none = none ∧
    Alert frames [] handler (some e) = some (WithStack1 e) ∧
    isCapturedO (Alert frames [] handler (some e)) = false ∧
    Alertf frames [] handler format a =
      .captured (.withStackE (mkAlertfErr format a)) [] ∧
    isCaptured (Alertf frames [] handler format a) = true := by
  refine ⟨rfl, rfl, ?_, ?_, ?_⟩
  · show isCaptured (WithStack1 e) = false
    rw [WithStack1]
    split
    · exact hcap
    · rfl
  · rw [Alertf, alert, hrec]
    rfl
  · rw [Alertf, alert, hrec]
    rfl

theorem C10_empty_registry_witness :
    recursionDetected ["main.main"] = false ∧
    isCaptured (.base "x") = false ∧
    (Alert ["main.main"] [] (fun _ => "") none = none ∧
      Alert ["main.main"] [] (fun _ => "") (some (.base "x")) =
        some (WithStack1 (.base "x")) ∧
      isCapturedO (Alert ["main.main"] [] (fun _ => "") (some (.base "x"))) =
        false ∧
      Alertf ["main.main"] [] (fun _ => "") "TestCaptureArg %v %v" [.str "one"] =
        .captured (.withStackE (mkAlertfErr "TestCaptureArg %v %v" [.str "one"])) [] ∧
      isCaptured (Alertf ["main.main"] [] (fun _ => "") "TestCaptureArg %v %v"
        [.str "one"]) = true) :=
  ⟨rfl, rfl,
    C10_empty_registry ["main.main"] (fun _ => "") (.base "x")
      "TestCaptureArg %v %v" [.str "one"] rfl rfl⟩

/-! Throttle lemmas. -/

/-- In the range the counter actually reaches, the `int32` increment
does not wrap. -/
theorem i32wrap_small (x : Int) (h1 : 0 ≤ x) (h2 : x < 2 ^ 31) :
    i32wrap x = x := by
  rw [i32wrap]
  have hp31 : (2 : Int) ^ 31 = 2147483648 := by norm_num
  have hp32 : (2 : Int) ^ 32 = 4294967296 := by norm_num
  rw [hp31, hp32] at *
  omega

/-- One step of `Throttle.Alert` on a non-nil error, by cases on the
incremented counter (which stays in `int32` range). -/
theorem throttleAlert_step (frames registry : List String)
    (handler : String → String) (t : Throttle) (e : Err)
    (h1 : 0 ≤ t.count) (h2 : t.count < 1000) :
    (t.count + 1 ≤ t.threshold →
      throttleAlert frames registry handler t (some e) =
        ({ t with count := t.count + 1 },
          Alert frames registry handler (some e), none)) ∧
    (¬(t.count + 1 ≤ t.threshold) → t.count + 1 = 1000 →
      throttleAlert frames registry handler t (some e) =
        ({ t with count := 0 }, some e,
          Alert frames registry handler
            (some (mkFmtErr "throttled excessive errors (%d in scope %q)"
              [.int (t.count + 1), .str t.scope])))) ∧
    (¬(t.count + 1 ≤ t.threshold) → t.count + 1 ≠ 1000 →
      throttleAlert frames registry handler t (some e) =
        ({ t with count := t.count + 1 }, some e, none)) := by
  have hw : i32wrap (t.count + 1) = t.count + 1 :=
    i32wrap_small _ (by omega) (by norm_num; omega)
  rw [throttleAlert]
  simp only [hw]
  refine ⟨fun hA => ?_, fun hA hB => ?_, fun hA hB => ?_⟩
  · rw [if_pos hA]
  · rw [if_neg hA, if_pos hB]
  · rw [if_neg hA, if_neg hB]

/-- The counter invariant of a throttle run: after `n` calls the counter
is `n mod 1000` (the reset branch at 1000 is reachable because the
threshold is below 1000), and the threshold and scope are unchanged. -/
theorem throttleRun_state (frames registry : List String)
    (handler : String → String) (scope : String) (T : Int) (e : Err)
    (hT : T < 1000) (n : Nat) :
    (throttleRun frames registry handler scope T e n).count =
      ((n % 1000 : Nat) : Int) ∧
    (throttleRun frames registry handler scope T e n).threshold = T ∧
    (throttleRun frames registry handler scope T e n).scope = scope := by
  induction n with
  | zero => exact ⟨rfl, rfl, rfl⟩
  | succ n ih =>
    obtain ⟨hc, ht, hs⟩ := ih
    have hk : (n % 1000 : Nat) < 1000 := Nat.mod_lt _ (by norm_num)
    have hstep := throttleAlert_step frames registry handler
      (throttleRun frames registry handler scope T e n) e
      (by rw [hc]; positivity) (by rw [hc]; exact_mod_cast hk)
    rw [throttleRun]
    by_cases hA : (throttleRun frames registry handler scope T e n).count + 1 ≤
        (throttleRun frames registry handler scope T e n).threshold
    · rw [hstep.1 hA]
      rw [hc, ht] at hA
      have hlt : (n % 1000 : Nat) + 1 < 1000 := by omega
      have hmod : (n + 1) % 1000 = n % 1000 + 1 := by omega
      refine ⟨?_, ht, hs⟩
      show (throttleRun frames registry handler scope T e n).count + 1 = _
      rw [hc, hmod]
      push_cast
      ring
    · by_cases hB : (throttleRun frames registry handler scope T e n).count + 1 = 1000
      · rw [(hstep.2.1) hA hB]
        rw [hc] at hB
        have h999 : (n % 1000 : Nat) = 999 := by omega
        have hmod : (n + 1) % 1000 = 0 := by omega
        exact ⟨by rw [hmod]; rfl, ht, hs⟩
      · rw [(hstep.2.2) hA hB]
        rw [hc] at hB
        have hne : (n % 1000 : Nat) + 1 ≠ 1000 := by
          intro h
          exact hB (by exact_mod_cast congrArg (Nat.cast : Nat → Int) h)
        have hmod : (n + 1) % 1000 = n % 1000 + 1 := by omega
        refine ⟨?_, ht, hs⟩
        show (throttleRun frames registry handler scope T e n).count + 1 = _
        rw [hc, hmod]
        push_cast
        ring

/-- The property C3 states of the `n+1`-st call of a throttle run:
within the threshold window the call delegates to `Alert` and yields a
`*Captured` result; past the threshold it returns the original error
with no forced alert; and on each 1000th call it returns the original
error, fires one forced summary alert, and resets the counter to zero,
opening a fresh threshold window. -/
def throttleSpec (frames registry : List String) (handler : String → String)
    (scope : String) (T : Int) (e : Err) (n : Nat) : Prop :=
  (throttleRun frames registry handler scope T e n).count =
    ((n % 1000 : Nat) : Int) ∧
  (let step := throttleAlert frames registry handler
      (throttleRun frames registry handler scope T e n) (some e)
   if ((n % 1000 : Nat) : Int) + 1 ≤ T then
     step.2.1 = some (.captured (.withStackE e) (capturedIds registry handler)) ∧
     isCapturedO step.2.1 = true ∧
     step.2.2 = none ∧
     step.1.count = ((n % 1000 : Nat) : Int) + 1
   else if (n + 1) % 1000 = 0 then
     step.2.1 = some e ∧
     step.2.2 = Alert frames registry handler
       (some (mkFmtErr "throttled excessive errors (%d in scope %q)"
         [.int 1000, .str scope])) ∧
     step.1.count = 0
   else
     step.2.1 = some e ∧ step.2.2 = none ∧
       step.1.count = ((n % 1000 : Nat) : Int) + 1)

/-- C3: with a positive threshold below the reset bound, a non-empty
sink registry and no recursion on the stack, every call of a throttle
run satisfies `throttleSpec`: calls while the incremented counter is at
or below the threshold delegate to the global `Alert` and produce
`*Captured` results; later calls return the original error uncaptured;
each 1000th call fires one forced summary alert and resets the counter,
so the following calls are again within a fresh threshold window. -/
theorem C3_throttle_behavior (frames : List String) (r : String)
    (rs : List String) (handler : String → String) (scope : String)
    (T : Int) (e : Err) (n : Nat)
    (hT2 : T < 1000)
    (hrec : recursionDetected frames = false) :
    throttleSpec frames (r :: rs) handler scope T e n := by
  obtain ⟨hc, ht, hs⟩ :=
    throttleRun_state frames (r :: rs) handler scope T e hT2 n
  have hk : (n % 1000 : Nat) < 1000 := Nat.mod_lt _ (by norm_num)
  have hstep := throttleAlert_step frames (r :: rs) handler
    (throttleRun frames (r :: rs) handler scope T e n) e
    (by rw [hc]; positivity) (by rw [hc]; exact_mod_cast hk)
  refine ⟨hc, ?_⟩
  by_cases hA : ((n % 1000 : Nat) : Int) + 1 ≤ T
  · rw [if_pos hA]
    have hA2 : (throttleRun frames (r :: rs) handler scope T e n).count + 1 ≤
        (throttleRun frames (r :: rs) handler scope T e n).threshold := by
      rw [hc, ht]; exact hA
    rw [hstep.1 hA2]
    refine ⟨Alert_dispatch frames r rs handler e hrec, ?_, rfl, ?_⟩
    · rw [Alert_dispatch frames r rs handler e hrec]
      rfl
    · show (throttleRun frames (r :: rs) handler scope T e n).count + 1 = _
      rw [hc]
  · rw [if_neg hA]
    have hA2 : ¬((throttleRun frames (r :: rs) handler scope T e n).count + 1 ≤
        (throttleRun frames (r :: rs) handler scope T e n).threshold) := by
      rw [hc, ht]; exact hA
    by_cases hB : (n + 1) % 1000 = 0
    · rw [if_pos hB]
      have h999 : (n % 1000 : Nat) = 999 := by omega
      have hB2 : (throttleRun frames (r :: rs) handler scope T e n).count + 1 =
          1000 := by
        rw [hc, h999]
        norm_num
      rw [hstep.2.1 hA2 hB2]
      refine ⟨rfl, ?_, rfl⟩
      rw [hB2, hs]
    · rw [if_neg hB]
      have hB2 : (throttleRun frames (r :: rs) handler scope T e n).count + 1 ≠
          1000 := by
        rw [hc]
        intro h
        have : (n % 1000 : Nat) = 999 := by exact_mod_cast by omega
        omega
      rw [hstep.2.2 hA2 hB2]
      refine ⟨rfl, rfl, ?_⟩
      show (throttleRun frames (r :: rs) handler scope T e n).count + 1 = _
      rw [hc]

theorem C3_throttle_behavior_witness :
    ((2 : Int) < 1000) ∧
    recursionDetected ["main.main"] = false ∧
    throttleSpec ["main.main"] ["log"] (fun _ => "id") "TestThrottle" 2
      (.base "number 1, should not be throttled") 0 ∧
    throttleSpec ["main.main"] ["log"] (fun _ => "id") "TestThrottle" 2
      (.base "number 1, should not be throttled") 2 ∧
    throttleSpec ["main.main"] ["log"] (fun _ => "id") "TestThrottle" 2
      (.base "number 1, should not be throttled") 999 ∧
    throttleSpec ["main.main"] ["log"] (fun _ => "id") "TestThrottle" 2
      (.base "number 1, should not be throttled") 1000 :=
  ⟨by norm_num, rfl,
    C3_throttle_behavior ["main.main"] "log" [] (fun _ => "id") "TestThrottle" 2
      (.base "number 1, should not be throttled") 0 (by norm_num) rfl,
    C3_throttle_behavior ["main.main"] "log" [] (fun _ => "id") "TestThrottle" 2
      (.base "number 1, should not be throttled") 2 (by norm_num) rfl,
    C3_throttle_behavior ["main.main"] "log" [] (fun _ => "id") "TestThrottle" 2
      (.base "number 1, should not be throttled") 999 (by norm_num) rfl,
    C3_throttle_behavior ["main.main"] "log" [] (fun _ => "id") "TestThrottle" 2
      (.base "number 1, should not be throttled") 1000 (by norm_num) rfl⟩

end MemsqlErrors
